import Mathlib

/-!
# Verification of the wptools core request/cache/validation lifecycle

Shallow embedding of `src/wptools/core.py` (class `WPTools`): the per-action
cache record, the orchestration in `_get`, the response validator
`_load_response`, the inspector accessors `info`/`query`/`response`, and the
`prettyprint` formatter.  External collaborators (the query builder, the HTTP
transport, the JSON parser in `utils.json_loads`, and the per-subclass
extraction `_set_data`) are not part of the core source and are modelled as
explicit function parameters, following the interfaces in the specification.
-/

set_option autoImplicit false

namespace WP

/-- JSON-like structured data, the result of parsing a raw response body. -/
inductive Json where
  | null : Json
  | bool (b : Bool) : Json
  | num (n : Int) : Json
  | str (s : String) : Json
  | arr (xs : List Json) : Json
  | obj (kvs : List (String × Json)) : Json

/-- Python truthiness of a JSON value: `None`, `False`, `0`, `""`, `[]`, `{}`
are falsy, everything else is truthy. -/
def pyTruthy : Json → Bool
  | .null => false
  | .bool b => b
  | .num n => n != 0
  | .str s => s ≠ ""
  | .arr xs => !xs.isEmpty
  | .obj kvs => !kvs.isEmpty

/-- Lookup in a JSON object's key/value list: Python `dict.get(k)`, returning
`none` when the key is absent (Python `None`). -/
def objGet (kvs : List (String × Json)) (k : String) : Option Json :=
  match kvs with
  | [] => none
  | (k', v) :: rest => if k' = k then some v else objGet rest k

/-- Truthiness of the result of a Python `dict.get`: absent keys are `None`,
hence falsy. -/
def getTruthy (v : Option Json) : Bool :=
  match v with
  | none => false
  | some j => pyTruthy j

/-- Python `needle in hay` for strings: substring containment. -/
def strContainsSub (hay needle : String) : Bool :=
  (List.range (hay.toList.length + 1)).any
    (fun i => needle.toList.isPrefixOf (hay.toList.drop i))

/-- Python `'-1' == v` for a JSON value `v`: string equality when `v` is a
string, `False` for every other type (Python `==` across types). -/
def jsonEqStr (v : Json) (s : String) : Bool :=
  match v with
  | .str t => t = s
  | _ => false

/-- Session parameters (`self.params`): `lang` plus the optional identity
fields set at construction. -/
structure Params where
  lang : String
  title : Option String := none
  pageid : Option String := none
  wiki : Option String := none
  variant : Option String := none
  deriving DecidableEq

/-- `query.replace('&format=json', '')` from `_load_response` / `query`:
removes every occurrence of the transport-format marker. -/
def stripFormat (q : String) : String :=
  ((q.splitOn "&format=json").foldl (fun a s => a ++ s) "")

/-- Outcome of `_load_response`: either the parsed payload, or one of the
classified failures of the spec's §7 taxonomy, or an unclassified Python
exception (`crash`, e.g. a `TypeError` from `'-1' in None`).  `emptyResponse`
carries the session `Params`; the other classified failures carry the
normalized query string (marker stripped). -/
inductive LoadResult where
  | ok (d : Json) : LoadResult
  | emptyResponse (p : Params) : LoadResult
  | malformed (q : String) : LoadResult
  | apiError (q : String) : LoadResult
  | notFound (q : String) : LoadResult
  | crash : LoadResult

/-- The final two checks of `_load_response` (`parse`, `wikidata`) and the
successful return.  The `'-1' in data.get('entities')` membership test is key
membership for a dict, element membership for a list, substring for a string,
and a `TypeError` (crash) on `None`, booleans and numbers. -/
def loadTail (kvs : List (String × Json)) (q action : String) : LoadResult :=
  if action = "parse" ∧ ¬ getTruthy (objGet kvs "parse") then .notFound q
  else if action = "wikidata" then
    match objGet kvs "entities" with
    | some (.obj ekvs) =>
      if (objGet ekvs "-1").isSome then .notFound q else .ok (.obj kvs)
    | some (.arr xs) =>
      if xs.any (jsonEqStr · "-1") then .notFound q else .ok (.obj kvs)
    | some (.str s) =>
      if strContainsSub s "-1" then .notFound q else .ok (.obj kvs)
    | _ => .crash
  else .ok (.obj kvs)

/-- The checks of `_load_response` on a successfully parsed object payload,
in source order: the `warnings` field only writes a diagnostic (no effect on
the result), the `error` field fails `APIError`, then the
query/pages/missing detector, then `loadTail`.  A `.get` or subscript applied
to a value of the wrong shape crashes, as in Python. -/
def loadChecks (kvs : List (String × Json)) (q action : String) : LoadResult :=
  if getTruthy (objGet kvs "error") then .apiError q
  else
    -- if 'query' in action and data.get('query'):
    if strContainsSub action "query" ∧ getTruthy (objGet kvs "query") then
      match objGet kvs "query" with
      | some (.obj qkvs) =>
        -- if data['query'].get('pages'):
        if getTruthy (objGet qkvs "pages") then
          match objGet qkvs "pages" with
          | some (.arr (p0 :: _)) =>
            -- data['query']['pages'][0].get('missing')
            match p0 with
            | .obj pkvs =>
              if getTruthy (objGet pkvs "missing") then .notFound q
              else loadTail kvs q action
            | _ => .crash
          | _ => .crash
        else loadTail kvs q action
      | _ => .crash
    else loadTail kvs q action

/-- `_load_response(action)` from `core.py`, with the cached query string and
raw response text passed explicitly (they are read off the ActionRecord) and
the external JSON parser `jl` (`utils.json_loads`) as a parameter: `none`
models a parse failure (`ValueError`).  Checked in source order: empty
response, parse, then the object checks of `loadChecks`/`loadTail`; a parsed
payload that is not an object crashes at `data.get('warnings')`. -/
def loadResponse (jl : String → Option Json) (p : Params)
    (query response action : String) : LoadResult :=
  if response = "" then .emptyResponse p
  else
    match jl response with
    | none => .malformed (stripFormat query)
    | some (.obj kvs) => loadChecks kvs (stripFormat query) action
    | some _ => .crash

/-- Transport metadata (`req.info`): at minimum content and status. -/
structure ReqInfo where
  content : String
  status : Int
  deriving DecidableEq

/-- One ActionRecord (`self.cache[action]`): a Python dict that starts as the
empty placeholder `{}` and gains `query`, `response`, `info` keys as `_get`
proceeds.  `none` models an absent key. -/
structure ActionRecord where
  query : Option String := none
  response : Option String := none
  info : Option ReqInfo := none
  deriving DecidableEq

/-- The empty placeholder record created by `self.cache[action] = {}`. -/
def emptyRecord : ActionRecord := {}

/-- The CacheStore `self.cache`: an insertion-ordered mapping from action name
to record, modelling a Python dict with unique keys. -/
abbrev Cache := List (String × ActionRecord)

/-- Dict lookup in the CacheStore. -/
def clookup (c : Cache) (a : String) : Option ActionRecord :=
  match c with
  | [] => none
  | (k, r) :: rest => if k = a then some r else clookup rest a

/-- In-place mutation of the record stored under an existing key
(`self.cache[action][...] = ...`). -/
def cupdate (c : Cache) (a : String) (f : ActionRecord → ActionRecord) : Cache :=
  match c with
  | [] => []
  | (k, r) :: rest => if k = a then (k, f r) :: rest else (k, r) :: cupdate rest a f

/-- Session flags (`self.flags`): `skip = []` models an absent/falsy `skip`
entry (the code guards with `self.flags.get('skip')`). -/
structure Flags where
  silent : Bool
  verbose : Bool
  skip : List String := []
  deriving DecidableEq

/-- One orchestrator session: CacheStore, Flags, Params, the Aggregate Data
mapping, and a ghost log `calls` recording, per transport invocation, the
action that triggered it (observable effect on the transport collaborator). -/
structure Session where
  cache : Cache := []
  flags : Flags
  params : Params
  data : List (String × Json) := []
  calls : List String := []

/-- How a `_get` call returned: cache-hit short-circuit, skip-policy
short-circuit, completed fetch, or a validation failure propagating out of
`_set_data` (the mutations made so far remain in place). -/
inductive GetOutcome where
  | cached : GetOutcome
  | skipped : GetOutcome
  | done : GetOutcome
  | failed (e : LoadResult) : GetOutcome

/-!
`WPTools._get(action, show, proxy, timeout)` from `core.py` is embedded as
`wpGet`, split into named stages whose composition follows the source line by
line.  External collaborators are parameters: `qb` is the abstract `_query`
builder (parameterized by the session Params, per the spec's query-builder
interface), `tr` the transport (`req.get` returning response text and
`req.info`), `jl` the JSON parser, and `ext` the extraction step of the
subclass `_set_data`.  `_set_data` is modelled from the spec: it runs the
validator on the stored triple and, on success, augments only the Aggregate
Data.  The `show` display side effect writes no state and is omitted.
-/

/-- Lines 64–69 of `core.py` past the cache-hit return: create the empty
placeholder record if the action is not yet cached. -/
def ensureRecord (s : Session) (action : String) : Session :=
  if (clookup s.cache action).isSome then s
  else { s with cache := s.cache ++ [(action, emptyRecord)] }

/-- The session state after lines 77–86 of `core.py`: the query string is
recorded on the ActionRecord, then the transport is called and its response
text and info metadata are recorded; the ghost transport log grows by this
action. -/
def fetchedSession (qb : Params → String → String) (tr : String → String × ReqInfo)
    (s1 : Session) (action : String) : Session :=
  { s1 with
    cache := cupdate (cupdate s1.cache action
        (fun r => { r with query := some (qb s1.params action) })) action
      (fun r => { r with response := some (tr (qb s1.params action)).1,
                         info := some (tr (qb s1.params action)).2 }),
    calls := s1.calls ++ [action] }

/-- The fetching stage of `_get` (lines 77–88 of `core.py`), entered once the
cache-hit and skip short-circuits have passed: record query, call transport,
record response/info, then run `_set_data` (validator, then extraction on
success; a validation failure propagates, leaving the stored triple behind). -/
def fetchPhase (qb : Params → String → String) (tr : String → String × ReqInfo)
    (jl : String → Option Json)
    (ext : String → Json → List (String × Json) → List (String × Json))
    (s1 : Session) (action : String) : Session × GetOutcome :=
  match loadResponse jl s1.params (qb s1.params action) (tr (qb s1.params action)).1 action with
  | .ok d => ({ fetchedSession qb tr s1 action with data := ext action d s1.data }, .done)
  | e => (fetchedSession qb tr s1 action, .failed e)

/-- `WPTools._get` proper: the cache-hit short-circuit (non-`imageinfo`
actions only), lazy creation of the empty placeholder record, the skip-policy
short-circuit, then the fetching stage. -/
def wpGet (qb : Params → String → String) (tr : String → String × ReqInfo)
    (jl : String → Option Json)
    (ext : String → Json → List (String × Json) → List (String × Json))
    (s : Session) (action : String) : Session × GetOutcome :=
  if (clookup s.cache action).isSome ∧ action ≠ "imageinfo" then
    (s, .cached)
  else if action ∈ (ensureRecord s action).flags.skip then
    (ensureRecord s action, .skipped)
  else fetchPhase qb tr jl ext (ensureRecord s action) action

/-- Fold a sequence of `_get` calls over one session, discarding outcomes. -/
def runSeq (qb : Params → String → String) (tr : String → String × ReqInfo)
    (jl : String → Option Json)
    (ext : String → Json → List (String × Json) → List (String × Json))
    (s : Session) : List String → Session
  | [] => s
  | a :: rest => runSeq qb tr jl ext (wpGet qb tr jl ext s a).1 rest

/-- Result of an inspector accessor: a value, the list of cached action names
(`self.cache.keys()`), `None` (empty cache, no action), a `KeyError` raised by
indexing a record that lacks the key, or a `ValueError` from `json_loads`. -/
inductive InspectResult (α : Type) where
  | val (a : α) : InspectResult α
  | keys (ks : List String) : InspectResult α
  | noneResult : InspectResult α
  | keyError : InspectResult α
  | parseError : InspectResult α

/-- `self.cache.keys() or None`: the action-name list, or `None` when the
cache is empty (empty `dict_keys` is falsy). -/
def cacheKeys {α : Type} (s : Session) : InspectResult α :=
  if s.cache.isEmpty then .noneResult else .keys (s.cache.map (fun kv => kv.1))

/-- `WPTools.info(action=None)`: the cached request info for the action, else
the cached action names.  `action = none` models the no-argument call (and
Python `None in self.cache` is false, so both take the same fallback). -/
def wpInfo (s : Session) (action : Option String) : InspectResult ReqInfo :=
  match action with
  | some a =>
    match clookup s.cache a with
    | some r =>
      match r.info with
      | some i => .val i
      | none => .keyError
    | none => cacheKeys s
  | none => cacheKeys s

/-- `WPTools.query(action=None)`: the cached query string with the
`&format=json` marker stripped, else the cached action names. -/
def wpQuery (s : Session) (action : Option String) : InspectResult String :=
  match action with
  | some a =>
    match clookup s.cache a with
    | some r =>
      match r.query with
      | some q => .val (stripFormat q)
      | none => .keyError
    | none => cacheKeys s
  | none => cacheKeys s

/-- `WPTools.response(action=None)`: `json_loads` of the cached raw response,
else the cached action names. -/
def wpResponse (jl : String → Option Json) (s : Session) (action : Option String) :
    InspectResult Json :=
  match action with
  | some a =>
    match clookup s.cache a with
    | some r =>
      match r.response with
      | some resp =>
        match jl resp with
        | some j => .val j
        | none => .parseError
      | none => .keyError
    | none => cacheKeys s
  | none => cacheKeys s

/-- Python `s[:n]` for a possibly negative stop index `n`. -/
def pySlice (s : String) (n : Int) : String :=
  if 0 ≤ n then String.mk (s.toList.take n.toNat)
  else String.mk (s.toList.take (s.toList.length - (Int.toNat (-n))))

/-- The per-line step of `prettyprint`: lines of length `>= maxwidth` are cut
to `maxwidth - (rpad + 2)` characters plus an ellipsis. -/
def prettyLine (maxwidth rpad : Nat) (line : String) : String :=
  if maxwidth ≤ line.length then
    pySlice line ((maxwidth : Int) - ((rpad : Int) + 2)) ++ "..."
  else line

/-- `prettyprint(datastr)` from `core.py`, returning the lines written to
stderr; `maxwidth`/`rpad` stand for the `WPToolsQuery.MAXWIDTH`/`RPAD`
constants, which live outside the core module. -/
def prettyprint (maxwidth rpad : Nat) (datastr : List String) : List String :=
  datastr.map (prettyLine maxwidth rpad)

/-! ### Concrete collaborators used by witnesses and counterexamples -/

/-- A session Params with the default language, as built by `__init__`. -/
def egParams : Params := { lang := "en" }

/-- Session flags with no `skip` entry. -/
def egFlags : Flags := { silent := false, verbose := false }

/-- The payload of the spec's `validate("query", _, ...)` test case:
`{"query":{"pages":[{"missing":""}]}}`. -/
def c2Json : Json :=
  .obj [("query", .obj [("pages", .arr [.obj [("missing", .str "")]])])]

/-- The raw text of the spec's test case. -/
def c2Text : String := "\x7b\"query\":\x7b\"pages\":[\x7b\"missing\":\"\"\x7d]\x7d\x7d"

/-- A parse oracle mapping the test-case text to its structured form. -/
def c2Parse : String → Option Json := fun s => if s = c2Text then some c2Json else none

/-- A concrete query builder: prefixes the action name. -/
def egQb : Params → String → String := fun _ a => String.append "https://x/" a

/-- A concrete transport: returns the empty-object payload with 200 status. -/
def egTr : String → String × ReqInfo := fun _ => ("\x7b\x7d", { content := "TEST", status := 200 })

/-- A concrete parse oracle for the empty-object payload. -/
def egJl : String → Option Json := fun s => if s = "\x7b\x7d" then some (Json.obj []) else none

/-- A concrete extraction collaborator that records nothing. -/
def egExt : String → Json → List (String × Json) → List (String × Json) := fun _ _ d => d

/-- A fresh session, as `__init__` builds it. -/
def egSession : Session := { flags := egFlags, params := egParams }

/-- `__init__` generally: a fresh session with the given Flags and Params,
empty cache and data. -/
def initSession (fl : Flags) (p : Params) : Session := { flags := fl, params := p }

/-- Flags whose skip set contains "query". -/
def egSkipFlags : Flags := { silent := false, verbose := false, skip := ["query"] }

/-! ### Lemmas about the CacheStore operations -/

theorem clookup_append_none {c : Cache} {a : String} (h : clookup c a = none)
    (l : Cache) : clookup (c ++ l) a = clookup l a := by
  induction c with
  | nil => simp
  | cons kv rest ih =>
    obtain ⟨k, r⟩ := kv
    by_cases hk : k = a
    · simp [clookup, hk] at h
    · simp only [clookup, hk, if_false, List.cons_append] at h ⊢
      exact ih h

theorem clookup_append_some {c : Cache} {a : String} {r : ActionRecord}
    (h : clookup c a = some r) (l : Cache) : clookup (c ++ l) a = some r := by
  induction c with
  | nil => simp [clookup] at h
  | cons kv rest ih =>
    obtain ⟨k, r'⟩ := kv
    by_cases hk : k = a
    · simp only [clookup, hk, if_true] at h ⊢
      simpa using h
    · simp only [clookup, hk, if_false, List.cons_append] at h ⊢
      exact ih h

theorem clookup_singleton (a : String) (r : ActionRecord) :
    clookup [(a, r)] a = some r := by
  simp [clookup]

theorem clookup_cupdate_self (c : Cache) (a : String) (f : ActionRecord → ActionRecord) :
    clookup (cupdate c a f) a = (clookup c a).map f := by
  induction c with
  | nil => simp [clookup, cupdate]
  | cons kv rest ih =>
    obtain ⟨k, r⟩ := kv
    by_cases h : k = a
    · simp [clookup, cupdate, h]
    · simpa [clookup, cupdate, h] using ih

theorem clookup_cupdate_other {a b : String} (hne : b ≠ a)
    (c : Cache) (f : ActionRecord → ActionRecord) :
    clookup (cupdate c a f) b = clookup c b := by
  induction c with
  | nil => simp [cupdate]
  | cons kv rest ih =>
    obtain ⟨k, r⟩ := kv
    by_cases h : k = a
    · have hab : ¬ a = b := fun hh => hne hh.symm
      simp [clookup, cupdate, h, hab]
    · simp [clookup, cupdate, h, ih]

theorem clookup_append_singleton_other {a b : String} (hne : b ≠ a)
    (c : Cache) (r : ActionRecord) : clookup (c ++ [(a, r)]) b = clookup c b := by
  cases h : clookup c b with
  | some r' => exact clookup_append_some h _
  | none =>
    rw [clookup_append_none h]
    have hab : ¬ a = b := fun hh => hne hh.symm
    simp [clookup, hab]

/-! ### Structural lemmas about the `_get` stages -/

theorem ensureRecord_flags (s : Session) (a : String) :
    (ensureRecord s a).flags = s.flags := by
  unfold ensureRecord; split <;> rfl

theorem ensureRecord_params (s : Session) (a : String) :
    (ensureRecord s a).params = s.params := by
  unfold ensureRecord; split <;> rfl

theorem ensureRecord_calls (s : Session) (a : String) :
    (ensureRecord s a).calls = s.calls := by
  unfold ensureRecord; split <;> rfl

theorem ensureRecord_of_some {s : Session} {a : String}
    (h : (clookup s.cache a).isSome = true) : ensureRecord s a = s := by
  unfold ensureRecord; rw [if_pos h]

theorem ensureRecord_of_none {s : Session} {a : String}
    (h : clookup s.cache a = none) :
    ensureRecord s a = { s with cache := s.cache ++ [(a, emptyRecord)] } := by
  unfold ensureRecord
  rw [if_neg (by simp [h])]

theorem ensureRecord_lookup_self_of_none {s : Session} {a : String}
    (h : clookup s.cache a = none) :
    clookup (ensureRecord s a).cache a = some emptyRecord := by
  rw [ensureRecord_of_none h]
  exact (clookup_append_none h _).trans (clookup_singleton a emptyRecord)

theorem ensureRecord_key (s : Session) (a : String) :
    (clookup (ensureRecord s a).cache a).isSome = true := by
  cases h : clookup s.cache a with
  | some r => rw [ensureRecord_of_some (by simp [h])]; simp [h]
  | none => rw [ensureRecord_lookup_self_of_none h]; rfl

theorem ensureRecord_lookup_other {b a : String} (hne : b ≠ a) (s : Session) :
    clookup (ensureRecord s a).cache b = clookup s.cache b := by
  unfold ensureRecord
  split
  · rfl
  · exact clookup_append_singleton_other hne _ _

/-- The complete record stored by the fetching stage. -/
def fetchedRecord (qb : Params → String → String) (tr : String → String × ReqInfo)
    (s1 : Session) (a : String) : ActionRecord :=
  { query := some (qb s1.params a),
    response := some (tr (qb s1.params a)).1,
    info := some (tr (qb s1.params a)).2 }

theorem fetchedSession_lookup_self (qb : Params → String → String)
    (tr : String → String × ReqInfo) (s1 : Session) (a : String) :
    clookup (fetchedSession qb tr s1 a).cache a =
      (clookup s1.cache a).map (fun _ => fetchedRecord qb tr s1 a) := by
  unfold fetchedSession
  simp only [clookup_cupdate_self]
  cases clookup s1.cache a <;> rfl

theorem fetchedSession_lookup_other {b a : String} (hne : b ≠ a)
    (qb : Params → String → String) (tr : String → String × ReqInfo) (s1 : Session) :
    clookup (fetchedSession qb tr s1 a).cache b = clookup s1.cache b := by
  unfold fetchedSession
  simp only []
  rw [clookup_cupdate_other hne, clookup_cupdate_other hne]

theorem fetchPhase_fst (qb : Params → String → String) (tr : String → String × ReqInfo)
    (jl : String → Option Json)
    (ext : String → Json → List (String × Json) → List (String × Json))
    (s1 : Session) (a : String) :
    ∃ d, (fetchPhase qb tr jl ext s1 a).1 = { fetchedSession qb tr s1 a with data := d } := by
  unfold fetchPhase
  split
  · exact ⟨_, rfl⟩
  · exact ⟨s1.data, rfl⟩

theorem fetchPhase_flags (qb : Params → String → String) (tr : String → String × ReqInfo)
    (jl : String → Option Json)
    (ext : String → Json → List (String × Json) → List (String × Json))
    (s1 : Session) (a : String) :
    (fetchPhase qb tr jl ext s1 a).1.flags = s1.flags := by
  obtain ⟨d, hd⟩ := fetchPhase_fst qb tr jl ext s1 a
  rw [hd]; rfl

theorem fetchPhase_calls (qb : Params → String → String) (tr : String → String × ReqInfo)
    (jl : String → Option Json)
    (ext : String → Json → List (String × Json) → List (String × Json))
    (s1 : Session) (a : String) :
    (fetchPhase qb tr jl ext s1 a).1.calls = s1.calls ++ [a] := by
  obtain ⟨d, hd⟩ := fetchPhase_fst qb tr jl ext s1 a
  rw [hd]; rfl

theorem fetchPhase_lookup_self (qb : Params → String → String) (tr : String → String × ReqInfo)
    (jl : String → Option Json)
    (ext : String → Json → List (String × Json) → List (String × Json))
    (s1 : Session) (a : String) :
    clookup (fetchPhase qb tr jl ext s1 a).1.cache a =
      (clookup s1.cache a).map (fun _ => fetchedRecord qb tr s1 a) := by
  obtain ⟨d, hd⟩ := fetchPhase_fst qb tr jl ext s1 a
  rw [hd]
  exact fetchedSession_lookup_self qb tr s1 a

theorem fetchPhase_lookup_other {b a : String} (hne : b ≠ a)
    (qb : Params → String → String) (tr : String → String × ReqInfo)
    (jl : String → Option Json)
    (ext : String → Json → List (String × Json) → List (String × Json))
    (s1 : Session) :
    clookup (fetchPhase qb tr jl ext s1 a).1.cache b = clookup s1.cache b := by
  obtain ⟨d, hd⟩ := fetchPhase_fst qb tr jl ext s1 a
  rw [hd]
  exact fetchedSession_lookup_other hne qb tr s1

theorem wpGet_eq_cached {s : Session} {a : String}
    (qb : Params → String → String) (tr : String → String × ReqInfo)
    (jl : String → Option Json)
    (ext : String → Json → List (String × Json) → List (String × Json))
    (hc : (clookup s.cache a).isSome = true) (hne : a ≠ "imageinfo") :
    wpGet qb tr jl ext s a = (s, .cached) := by
  unfold wpGet; rw [if_pos ⟨hc, hne⟩]

theorem wpGet_eq_skipped {s : Session} {a : String}
    (qb : Params → String → String) (tr : String → String × ReqInfo)
    (jl : String → Option Json)
    (ext : String → Json → List (String × Json) → List (String × Json))
    (hc : ¬((clookup s.cache a).isSome = true ∧ a ≠ "imageinfo"))
    (hskip : a ∈ s.flags.skip) :
    wpGet qb tr jl ext s a = (ensureRecord s a, .skipped) := by
  unfold wpGet
  rw [if_neg hc, if_pos (by rwa [ensureRecord_flags])]

theorem wpGet_eq_fetch {s : Session} {a : String}
    (qb : Params → String → String) (tr : String → String × ReqInfo)
    (jl : String → Option Json)
    (ext : String → Json → List (String × Json) → List (String × Json))
    (hc : ¬((clookup s.cache a).isSome = true ∧ a ≠ "imageinfo"))
    (hskip : a ∉ s.flags.skip) :
    wpGet qb tr jl ext s a = fetchPhase qb tr jl ext (ensureRecord s a) a := by
  unfold wpGet
  rw [if_neg hc, if_neg (by rwa [ensureRecord_flags])]

theorem wpGet_flags (qb : Params → String → String) (tr : String → String × ReqInfo)
    (jl : String → Option Json)
    (ext : String → Json → List (String × Json) → List (String × Json))
    (s : Session) (a : String) :
    (wpGet qb tr jl ext s a).1.flags = s.flags := by
  by_cases hc : (clookup s.cache a).isSome = true ∧ a ≠ "imageinfo"
  · rw [wpGet_eq_cached qb tr jl ext hc.1 hc.2]
  · by_cases hskip : a ∈ s.flags.skip
    · rw [wpGet_eq_skipped qb tr jl ext hc hskip]
      exact ensureRecord_flags s a
    · rw [wpGet_eq_fetch qb tr jl ext hc hskip]
      rw [fetchPhase_flags]
      exact ensureRecord_flags s a

theorem wpGet_key_present (qb : Params → String → String) (tr : String → String × ReqInfo)
    (jl : String → Option Json)
    (ext : String → Json → List (String × Json) → List (String × Json))
    (s : Session) (a : String) :
    (clookup (wpGet qb tr jl ext s a).1.cache a).isSome = true := by
  by_cases hc : (clookup s.cache a).isSome = true ∧ a ≠ "imageinfo"
  · rw [wpGet_eq_cached qb tr jl ext hc.1 hc.2]
    exact hc.1
  · by_cases hskip : a ∈ s.flags.skip
    · rw [wpGet_eq_skipped qb tr jl ext hc hskip]
      exact ensureRecord_key s a
    · rw [wpGet_eq_fetch qb tr jl ext hc hskip]
      rw [fetchPhase_lookup_self]
      have := ensureRecord_key s a
      cases h : clookup (ensureRecord s a).cache a with
      | some r => rfl
      | none => rw [h] at this; simp at this

theorem wpGet_calls (qb : Params → String → String) (tr : String → String × ReqInfo)
    (jl : String → Option Json)
    (ext : String → Json → List (String × Json) → List (String × Json))
    (s : Session) (a : String) :
    (wpGet qb tr jl ext s a).1.calls = s.calls ∨
    (wpGet qb tr jl ext s a).1.calls = s.calls ++ [a] := by
  by_cases hc : (clookup s.cache a).isSome = true ∧ a ≠ "imageinfo"
  · rw [wpGet_eq_cached qb tr jl ext hc.1 hc.2]
    exact Or.inl rfl
  · by_cases hskip : a ∈ s.flags.skip
    · rw [wpGet_eq_skipped qb tr jl ext hc hskip]
      exact Or.inl (ensureRecord_calls s a)
    · rw [wpGet_eq_fetch qb tr jl ext hc hskip]
      rw [fetchPhase_calls, ensureRecord_calls]
      exact Or.inr rfl

/-! ### Lemmas about successful validation -/

theorem loadTail_ok {kvs : List (String × Json)} {q action : String} {d : Json}
    (h : loadTail kvs q action = LoadResult.ok d) : d = Json.obj kvs := by
  unfold loadTail at h
  repeat' split at h
  all_goals (cases h <;> rfl)

theorem loadChecks_ok {kvs : List (String × Json)} {q action : String} {d : Json}
    (h : loadChecks kvs q action = LoadResult.ok d) : d = Json.obj kvs := by
  unfold loadChecks at h
  repeat' split at h
  all_goals first
    | cases h
    | exact loadTail_ok h

theorem loadResponse_ok {jl : String → Option Json} {p : Params}
    {query response action : String} {d : Json}
    (h : loadResponse jl p query response action = LoadResult.ok d) :
    response ≠ "" ∧ jl response = some d := by
  by_cases hresp : response = ""
  · subst hresp
    simp [loadResponse] at h
  · refine ⟨hresp, ?_⟩
    unfold loadResponse at h
    rw [if_neg hresp] at h
    cases hjl : jl response with
    | none => rw [hjl] at h; cases h
    | some data =>
      rw [hjl] at h
      cases data with
      | obj kvs =>
        dsimp only at h
        rw [loadChecks_ok h]
      | null => cases h
      | bool b => cases h
      | num n => cases h
      | str s => cases h
      | arr xs => cases h

/-! ### Claim theorems -/

/-- C4: for every action name and every parse oracle, validating an
empty/absent raw response fails with `EmptyResponse` carrying the session
Params as diagnostic context; the result does not depend on the parser, the
action, or the query string, so this check precedes all other validation
checks. -/
theorem c4_empty_response_first (jl : String → Option Json) (p : Params)
    (query action : String) :
    loadResponse jl p query "" action = LoadResult.emptyResponse p := by
  simp [loadResponse]

/-- C2 counterexample: on the spec's own test payload
`{"query":{"pages":[{"missing":""}]}}` with action `"query"`, the validator
returns the parsed payload successfully instead of failing `NotFound`: the
`missing` value `""` is falsy in Python, so `pages[0].get('missing')` does not
trigger the `LookupError`. -/
theorem c2_counterexample :
    loadResponse c2Parse egParams "q" c2Text "query" = LoadResult.ok c2Json ∧
    loadResponse c2Parse egParams "q" c2Text "query" ≠ LoadResult.notFound "q" := by
  constructor
  · rfl
  · intro h
    rw [show loadResponse c2Parse egParams "q" c2Text "query" = LoadResult.ok c2Json
      from rfl] at h
    exact LoadResult.noConfusion h

/-- C2 (amended): for any action name containing the substring "query" and
any well-formed payload whose `query.pages` sequence has a first element
carrying a truthy `missing` value (e.g. `true` or a non-empty string),
validation fails with `NotFound`; a falsy `missing` value such as `""` is not
treated as missing. -/
theorem c2_missing_truthy_notfound (jl : String → Option Json) (p : Params)
    (query response action : String) (kvs qkvs pkvs : List (String × Json))
    (ps : List Json)
    (hresp : response ≠ "")
    (hjl : jl response = some (Json.obj kvs))
    (herr : getTruthy (objGet kvs "error") = false)
    (hact : strContainsSub action "query" = true)
    (hq : objGet kvs "query" = some (Json.obj qkvs))
    (hpages : objGet qkvs "pages" = some (Json.arr (Json.obj pkvs :: ps)))
    (hm : getTruthy (objGet pkvs "missing") = true) :
    loadResponse jl p query response action = LoadResult.notFound (stripFormat query) := by
  have hqt : getTruthy (objGet kvs "query") = true := by
    rw [hq]
    cases hq0 : qkvs with
    | nil => rw [hq0] at hpages; simp [objGet] at hpages
    | cons x xs => rfl
  unfold loadResponse
  rw [if_neg hresp, hjl]
  dsimp only
  unfold loadChecks
  rw [herr]
  simp only [Bool.false_eq_true, if_false]
  rw [if_pos ⟨hact, hqt⟩, hq]
  dsimp only
  rw [hpages]
  rw [if_pos (show getTruthy (some (Json.arr (Json.obj pkvs :: ps))) = true from rfl)]
  dsimp only
  rw [if_pos hm]

/-- C2 witness: a payload with `"missing": true` in the first page element
fails `NotFound` for action "query". -/
theorem c2_missing_truthy_notfound_witness :
    loadResponse
      (fun s => if s = "m" then
        some (Json.obj [("query", Json.obj [("pages",
          Json.arr [Json.obj [("missing", Json.bool true)]])])]) else none)
      egParams "q&format=json" "m" "query" = LoadResult.notFound (stripFormat "q&format=json") :=
  c2_missing_truthy_notfound
    (fun s => if s = "m" then
      some (Json.obj [("query", Json.obj [("pages",
        Json.arr [Json.obj [("missing", Json.bool true)]])])]) else none)
    egParams "q&format=json" "m" "query"
    [("query", Json.obj [("pages", Json.arr [Json.obj [("missing", Json.bool true)]])])]
    [("pages", Json.arr [Json.obj [("missing", Json.bool true)]])]
    [("missing", Json.bool true)] []
    (by decide) rfl rfl (by decide) rfl rfl rfl

/-- C8: for action "wikidata" and a parseable payload with no "error" field
that lacks an "entities" mapping entirely, `_load_response` does not produce
any classified failure of the spec's §7 taxonomy: the membership test
`'-1' in data.get('entities')` runs on `None` and raises an unclassified
`TypeError` (modelled as `crash`). -/
theorem c8_wikidata_no_entities_crash (jl : String → Option Json) (p : Params)
    (query response : String) (kvs : List (String × Json))
    (hresp : response ≠ "")
    (hjl : jl response = some (Json.obj kvs))
    (herr : objGet kvs "error" = none)
    (hent : objGet kvs "entities" = none) :
    loadResponse jl p query response "wikidata" = LoadResult.crash := by
  unfold loadResponse
  rw [if_neg hresp, hjl]
  dsimp only
  unfold loadChecks
  rw [herr]
  simp only [getTruthy, Bool.false_eq_true, if_false]
  rw [if_neg (by simp [show strContainsSub "wikidata" "query" = false from rfl])]
  unfold loadTail
  rw [if_neg (by simp)]
  rw [if_pos rfl, hent]

/-- C8 witness: a concrete wikidata payload `{"id":"Q1"}` with no entities
mapping crashes the validator. -/
theorem c8_wikidata_no_entities_crash_witness :
    loadResponse (fun s => if s = "w" then some (Json.obj [("id", Json.str "Q1")]) else none)
      egParams "q" "w" "wikidata" = LoadResult.crash :=
  c8_wikidata_no_entities_crash
    (fun s => if s = "w" then some (Json.obj [("id", Json.str "Q1")]) else none)
    egParams "q" "w" [("id", Json.str "Q1")] (by decide) rfl rfl rfl

/-- C7 counterexample: with `maxwidth = 8` and `rpad = 2`, the line
`"abcdefgh"` has length exactly `maxwidth`, so it is not longer than
`maxwidth` and the claim says it is written unchanged; the code's `>=` test
truncates it to `"abcd..."`. -/
theorem c7_counterexample :
    prettyprint 8 2 ["abcdefgh"] = ["abcd..."] ∧
    prettyprint 8 2 ["abcdefgh"] ≠ ["abcdefgh"] := by
  refine ⟨rfl, ?_⟩
  intro h
  rw [show prettyprint 8 2 ["abcdefgh"] = ["abcd..."] from rfl] at h
  simp at h

/-- C7 (amended): the final write hard-truncates each line of length at least
`maxwidth` — not only those strictly longer — to exactly
`maxwidth - (rpad + 2)` characters followed by a trailing ellipsis, and
writes every line strictly shorter than `maxwidth` unchanged. -/
theorem c7_hard_truncation (maxwidth rpad : Nat) (h : rpad + 2 ≤ maxwidth)
    (ls : List String) :
    prettyprint maxwidth rpad ls = ls.map (fun line =>
      if maxwidth ≤ line.length then
        String.mk (line.toList.take (maxwidth - (rpad + 2))) ++ "..."
      else line) ∧
    ∀ line ∈ ls, maxwidth ≤ line.length →
      (prettyLine maxwidth rpad line).length = (maxwidth - (rpad + 2)) + 3 := by
  have hline : ∀ line : String,
      prettyLine maxwidth rpad line =
        if maxwidth ≤ line.length then
          String.mk (line.toList.take (maxwidth - (rpad + 2))) ++ "..."
        else line := by
    intro line
    unfold prettyLine
    by_cases hw : maxwidth ≤ line.length
    · rw [if_pos hw, if_pos hw]
      unfold pySlice
      rw [if_pos (show (0 : Int) ≤ (maxwidth : Int) - ((rpad : Int) + 2) by omega)]
      have ht : ((maxwidth : Int) - ((rpad : Int) + 2)).toNat = maxwidth - (rpad + 2) := by
        omega
      rw [ht]
    · rw [if_neg hw, if_neg hw]
  constructor
  · unfold prettyprint
    exact List.map_congr_left (fun line _ => hline line)
  · intro line _ hw
    rw [hline line, if_pos hw]
    have h3 : ("..." : String).length = 3 := rfl
    have hmk : (String.mk (line.toList.take (maxwidth - (rpad + 2)))).length
        = (line.toList.take (maxwidth - (rpad + 2))).length := rfl
    rw [String.length_append, hmk, h3, List.length_take]
    have hll : line.toList.length = line.length := rfl
    omega

/-- C7 witness: at `maxwidth = 8`, `rpad = 2`, the line of length 9 is cut to
4 characters plus the ellipsis and the shorter line is unchanged. -/
theorem c7_hard_truncation_witness :
    2 + 2 ≤ 8 ∧
    (prettyprint 8 2 ["abcdefghi", "abc"] = ["abcdefghi", "abc"].map (fun line =>
      if 8 ≤ line.length then
        String.mk (line.toList.take (8 - (2 + 2))) ++ "..."
      else line) ∧
    ∀ line ∈ ["abcdefghi", "abc"], 8 ≤ line.length →
      (prettyLine 8 2 line).length = (8 - (2 + 2)) + 3) :=
  ⟨by decide, c7_hard_truncation 8 2 (by decide) ["abcdefghi", "abc"]⟩

/-- C1: for every action other than "imageinfo", a second `fetch` of the same
action in the same session is a no-op: the session state (in particular the
CacheStore) after the second call equals the state after the first call, and
across both calls the transport collaborator is invoked at most once for this
action. -/
theorem c1_second_fetch_noop (qb : Params → String → String)
    (tr : String → String × ReqInfo) (jl : String → Option Json)
    (ext : String → Json → List (String × Json) → List (String × Json))
    (s : Session) (a : String) (hne : a ≠ "imageinfo") :
    (wpGet qb tr jl ext (wpGet qb tr jl ext s a).1 a).1 = (wpGet qb tr jl ext s a).1 ∧
    (wpGet qb tr jl ext (wpGet qb tr jl ext s a).1 a).1.cache
      = (wpGet qb tr jl ext s a).1.cache ∧
    List.count a (wpGet qb tr jl ext (wpGet qb tr jl ext s a).1 a).1.calls
      ≤ List.count a s.calls + 1 := by
  have hkey := wpGet_key_present qb tr jl ext s a
  have h2 : wpGet qb tr jl ext (wpGet qb tr jl ext s a).1 a
      = ((wpGet qb tr jl ext s a).1, .cached) :=
    wpGet_eq_cached qb tr jl ext hkey hne
  refine ⟨by rw [h2], by rw [h2], ?_⟩
  rw [h2]
  rcases wpGet_calls qb tr jl ext s a with hcl | hcl
  · rw [hcl]
    exact Nat.le_succ_of_le (Nat.le_refl _)
  · rw [hcl]
    simp [List.count_append]

/-- C1 witness: two fetches of "query" on a fresh session. -/
theorem c1_second_fetch_noop_witness :
    "query" ≠ "imageinfo" ∧
    ((wpGet egQb egTr egJl egExt (wpGet egQb egTr egJl egExt egSession "query").1 "query").1
        = (wpGet egQb egTr egJl egExt egSession "query").1 ∧
      (wpGet egQb egTr egJl egExt (wpGet egQb egTr egJl egExt egSession "query").1 "query").1.cache
        = (wpGet egQb egTr egJl egExt egSession "query").1.cache ∧
      List.count "query"
          (wpGet egQb egTr egJl egExt (wpGet egQb egTr egJl egExt egSession "query").1 "query").1.calls
        ≤ List.count "query" egSession.calls + 1) :=
  ⟨by decide, c1_second_fetch_noop egQb egTr egJl egExt egSession "query" (by decide)⟩

/-- C5: in every `fetch` that reaches the fetching stage (neither a cache hit
nor skipped), the built query string is stored on the ActionRecord, and it is
still there after the call regardless of how the call ended — the query is
recorded before the transport result is consumed, so even a fetch whose
transport/validation fails leaves the query string on the record. -/
theorem c5_query_recorded (qb : Params → String → String)
    (tr : String → String × ReqInfo) (jl : String → Option Json)
    (ext : String → Json → List (String × Json) → List (String × Json))
    (s : Session) (a : String)
    (h1 : (wpGet qb tr jl ext s a).2 ≠ GetOutcome.cached)
    (h2 : (wpGet qb tr jl ext s a).2 ≠ GetOutcome.skipped) :
    ∃ r, clookup (wpGet qb tr jl ext s a).1.cache a = some r ∧
      r.query = some (qb s.params a) := by
  by_cases hc : (clookup s.cache a).isSome = true ∧ a ≠ "imageinfo"
  · rw [wpGet_eq_cached qb tr jl ext hc.1 hc.2] at h1
    exact absurd rfl h1
  · by_cases hskip : a ∈ s.flags.skip
    · rw [wpGet_eq_skipped qb tr jl ext hc hskip] at h2
      exact absurd rfl h2
    · rw [wpGet_eq_fetch qb tr jl ext hc hskip, fetchPhase_lookup_self]
      have hkey := ensureRecord_key s a
      cases hcl : clookup (ensureRecord s a).cache a with
      | none => rw [hcl] at hkey; simp at hkey
      | some r0 =>
        refine ⟨fetchedRecord qb tr (ensureRecord s a) a, rfl, ?_⟩
        show some (qb (ensureRecord s a).params a) = some (qb s.params a)
        rw [ensureRecord_params]

/-- C5 witness: a fetch of "query" on a fresh session completes and the
record holds the built query string. -/
theorem c5_query_recorded_witness :
    ((wpGet egQb egTr egJl egExt egSession "query").2 ≠ GetOutcome.cached ∧
     (wpGet egQb egTr egJl egExt egSession "query").2 ≠ GetOutcome.skipped) ∧
    ∃ r, clookup (wpGet egQb egTr egJl egExt egSession "query").1.cache "query" = some r ∧
      r.query = some (egQb egSession.params "query") := by
  have hdone : (wpGet egQb egTr egJl egExt egSession "query").2 = GetOutcome.done := rfl
  have hx1 : (wpGet egQb egTr egJl egExt egSession "query").2 ≠ GetOutcome.cached := by
    rw [hdone]; exact fun hx => GetOutcome.noConfusion hx
  have hx2 : (wpGet egQb egTr egJl egExt egSession "query").2 ≠ GetOutcome.skipped := by
    rw [hdone]; exact fun hx => GetOutcome.noConfusion hx
  exact ⟨⟨hx1, hx2⟩, c5_query_recorded egQb egTr egJl egExt egSession "query" hx1 hx2⟩

/-- C6: for every fetch that completes with a successful validation, the
inspector accessor `response(A)` returns exactly the structured parse of the
raw response text that the transport returned during that fetch. -/
theorem c6_response_roundtrip (qb : Params → String → String)
    (tr : String → String × ReqInfo) (jl : String → Option Json)
    (ext : String → Json → List (String × Json) → List (String × Json))
    (s : Session) (a : String)
    (h : (wpGet qb tr jl ext s a).2 = GetOutcome.done) :
    ∃ d, jl (tr (qb s.params a)).1 = some d ∧
      wpResponse jl (wpGet qb tr jl ext s a).1 (some a) = InspectResult.val d := by
  by_cases hc : (clookup s.cache a).isSome = true ∧ a ≠ "imageinfo"
  · rw [wpGet_eq_cached qb tr jl ext hc.1 hc.2] at h
    cases h
  · by_cases hskip : a ∈ s.flags.skip
    · rw [wpGet_eq_skipped qb tr jl ext hc hskip] at h
      cases h
    · have heq := wpGet_eq_fetch qb tr jl ext hc hskip
      rw [heq] at h ⊢
      unfold fetchPhase at h
      split at h
      · rename_i d heqd
        refine ⟨d, ?_, ?_⟩
        · have hj := (loadResponse_ok heqd).2
          rw [ensureRecord_params] at hj
          exact hj
        · obtain ⟨dd, hdd⟩ := fetchPhase_fst qb tr jl ext (ensureRecord s a) a
          rw [hdd]
          unfold wpResponse
          dsimp only
          rw [fetchedSession_lookup_self]
          have hkey := ensureRecord_key s a
          cases hcl : clookup (ensureRecord s a).cache a with
          | none => rw [hcl] at hkey; simp at hkey
          | some r0 =>
            have hj := (loadResponse_ok heqd).2
            show (match (fetchedRecord qb tr (ensureRecord s a) a).response with
              | some resp => match jl resp with
                | some j => InspectResult.val j
                | none => InspectResult.parseError
              | none => InspectResult.keyError) = InspectResult.val d
            show (match jl (tr (qb (ensureRecord s a).params a)).1 with
              | some j => InspectResult.val j
              | none => InspectResult.parseError) = InspectResult.val d
            rw [hj]
      · rename_i e heqe
        cases h

/-- C6 witness: the completed "query" fetch on a fresh session round-trips
the transport payload through the response accessor. -/
theorem c6_response_roundtrip_witness :
    (wpGet egQb egTr egJl egExt egSession "query").2 = GetOutcome.done ∧
    ∃ d, egJl (egTr (egQb egSession.params "query")).1 = some d ∧
      wpResponse egJl (wpGet egQb egTr egJl egExt egSession "query").1 (some "query")
        = InspectResult.val d :=
  ⟨rfl, c6_response_roundtrip egQb egTr egJl egExt egSession "query" rfl⟩

/-- C9: a `fetch` that returns via the skip-policy short-circuit for an
action not previously cached leaves the empty placeholder record in the
CacheStore (no query, response or info field), and each inspector accessor
applied to that action then raises a `KeyError` instead of returning a
"no result" value. -/
theorem c9_skip_leaves_placeholder (qb : Params → String → String)
    (tr : String → String × ReqInfo) (jl : String → Option Json)
    (ext : String → Json → List (String × Json) → List (String × Json))
    (s : Session) (a : String)
    (hnc : clookup s.cache a = none) (hskip : a ∈ s.flags.skip) :
    wpGet qb tr jl ext s a
      = ({ s with cache := s.cache ++ [(a, emptyRecord)] }, GetOutcome.skipped) ∧
    clookup (wpGet qb tr jl ext s a).1.cache a = some emptyRecord ∧
    wpInfo (wpGet qb tr jl ext s a).1 (some a) = InspectResult.keyError ∧
    wpQuery (wpGet qb tr jl ext s a).1 (some a) = InspectResult.keyError ∧
    wpResponse jl (wpGet qb tr jl ext s a).1 (some a) = InspectResult.keyError := by
  have hc : ¬((clookup s.cache a).isSome = true ∧ a ≠ "imageinfo") := by
    intro hx
    rw [hnc] at hx
    simp at hx
  have heq : wpGet qb tr jl ext s a = (ensureRecord s a, .skipped) :=
    wpGet_eq_skipped qb tr jl ext hc hskip
  have hlook : clookup (wpGet qb tr jl ext s a).1.cache a = some emptyRecord := by
    rw [heq]
    exact ensureRecord_lookup_self_of_none hnc
  refine ⟨by rw [heq, ensureRecord_of_none hnc], hlook, ?_, ?_, ?_⟩
  · unfold wpInfo
    dsimp only
    rw [hlook]
    rfl
  · unfold wpQuery
    dsimp only
    rw [hlook]
    rfl
  · unfold wpResponse
    dsimp only
    rw [hlook]
    rfl

/-- C9 witness: skipping "query" on a fresh session whose skip set holds
"query". -/
theorem c9_skip_leaves_placeholder_witness :
    (clookup (initSession egSkipFlags egParams).cache "query" = none ∧
     "query" ∈ (initSession egSkipFlags egParams).flags.skip) ∧
    (wpGet egQb egTr egJl egExt (initSession egSkipFlags egParams) "query"
      = ({ initSession egSkipFlags egParams with
            cache := (initSession egSkipFlags egParams).cache ++ [("query", emptyRecord)] },
         GetOutcome.skipped) ∧
    clookup (wpGet egQb egTr egJl egExt (initSession egSkipFlags egParams) "query").1.cache "query"
      = some emptyRecord ∧
    wpInfo (wpGet egQb egTr egJl egExt (initSession egSkipFlags egParams) "query").1 (some "query")
      = InspectResult.keyError ∧
    wpQuery (wpGet egQb egTr egJl egExt (initSession egSkipFlags egParams) "query").1 (some "query")
      = InspectResult.keyError ∧
    wpResponse egJl (wpGet egQb egTr egJl egExt (initSession egSkipFlags egParams) "query").1 (some "query")
      = InspectResult.keyError) :=
  ⟨⟨rfl, by simp [initSession, egSkipFlags]⟩,
    c9_skip_leaves_placeholder egQb egTr egJl egExt (initSession egSkipFlags egParams) "query"
      rfl (by simp [initSession, egSkipFlags])⟩

/-- C10: each inspector accessor applied to an action name not present in the
CacheStore returns the same value as its no-argument form — the list of all
cached action names when the CacheStore is non-empty and the "no result"
value when it is empty — and never raises an error for the unknown name. -/
theorem c10_unknown_action_accessors (jl : String → Option Json) (s : Session)
    (a : String) (h : clookup s.cache a = none) :
    (wpInfo s (some a) = wpInfo s none ∧
     wpQuery s (some a) = wpQuery s none ∧
     wpResponse jl s (some a) = wpResponse jl s none) ∧
    (s.cache.isEmpty = true →
      wpInfo s (some a) = InspectResult.noneResult ∧
      wpQuery s (some a) = InspectResult.noneResult ∧
      wpResponse jl s (some a) = InspectResult.noneResult) ∧
    (s.cache.isEmpty = false →
      wpInfo s (some a) = InspectResult.keys (s.cache.map (fun kv => kv.1)) ∧
      wpQuery s (some a) = InspectResult.keys (s.cache.map (fun kv => kv.1)) ∧
      wpResponse jl s (some a) = InspectResult.keys (s.cache.map (fun kv => kv.1))) := by
  have hi : wpInfo s (some a) = cacheKeys s := by
    unfold wpInfo
    dsimp only
    rw [h]
  have hq : wpQuery s (some a) = cacheKeys s := by
    unfold wpQuery
    dsimp only
    rw [h]
  have hr : wpResponse jl s (some a) = cacheKeys s := by
    unfold wpResponse
    dsimp only
    rw [h]
  refine ⟨⟨hi.trans rfl, hq.trans rfl, hr.trans rfl⟩, ?_, ?_⟩
  · intro he
    have hk : ∀ {α : Type}, (cacheKeys s : InspectResult α) = InspectResult.noneResult := by
      intro α
      unfold cacheKeys
      rw [if_pos he]
    exact ⟨hi.trans hk, hq.trans hk, hr.trans hk⟩
  · intro he
    have hk : ∀ {α : Type}, (cacheKeys s : InspectResult α)
        = InspectResult.keys (s.cache.map (fun kv => kv.1)) := by
      intro α
      unfold cacheKeys
      rw [if_neg (by simp [he])]
    exact ⟨hi.trans hk, hq.trans hk, hr.trans hk⟩

/-- C10 witness: an unknown action on a fresh empty session gives the
"no result" value through all three accessors. -/
theorem c10_unknown_action_accessors_witness :
    clookup egSession.cache "nosuch" = none ∧
    ((wpInfo egSession (some "nosuch") = wpInfo egSession none ∧
      wpQuery egSession (some "nosuch") = wpQuery egSession none ∧
      wpResponse egJl egSession (some "nosuch") = wpResponse egJl egSession none) ∧
    (egSession.cache.isEmpty = true →
      wpInfo egSession (some "nosuch") = InspectResult.noneResult ∧
      wpQuery egSession (some "nosuch") = InspectResult.noneResult ∧
      wpResponse egJl egSession (some "nosuch") = InspectResult.noneResult) ∧
    (egSession.cache.isEmpty = false →
      wpInfo egSession (some "nosuch") = InspectResult.keys (egSession.cache.map (fun kv => kv.1)) ∧
      wpQuery egSession (some "nosuch") = InspectResult.keys (egSession.cache.map (fun kv => kv.1)) ∧
      wpResponse egJl egSession (some "nosuch")
        = InspectResult.keys (egSession.cache.map (fun kv => kv.1)))) :=
  ⟨rfl, c10_unknown_action_accessors egJl egSession "nosuch" rfl⟩

/-- Step lemma for C3: one `_get` call, on any action, preserves the
skip-action invariant: the skipped action's cache entry is absent or the
empty placeholder, and the transport log never grows an entry for it. -/
theorem skip_invariant_step (qb : Params → String → String)
    (tr : String → String × ReqInfo) (jl : String → Option Json)
    (ext : String → Json → List (String × Json) → List (String × Json))
    (s : Session) (a b : String)
    (hskip : a ∈ s.flags.skip)
    (hcache : clookup s.cache a = none ∨ clookup s.cache a = some emptyRecord) :
    (clookup (wpGet qb tr jl ext s b).1.cache a = none ∨
     clookup (wpGet qb tr jl ext s b).1.cache a = some emptyRecord) ∧
    List.count a (wpGet qb tr jl ext s b).1.calls = List.count a s.calls := by
  by_cases hab : b = a
  · subst hab
    by_cases hc : (clookup s.cache b).isSome = true ∧ b ≠ "imageinfo"
    · rw [wpGet_eq_cached qb tr jl ext hc.1 hc.2]
      exact ⟨hcache, rfl⟩
    · rw [wpGet_eq_skipped qb tr jl ext hc hskip]
      refine ⟨?_, by rw [ensureRecord_calls]⟩
      rcases hcache with h | h
      · exact Or.inr (ensureRecord_lookup_self_of_none h)
      · rw [ensureRecord_of_some (by simp [h])]
        exact Or.inr h
  · have hne : a ≠ b := fun hx => hab hx.symm
    constructor
    · by_cases hc : (clookup s.cache b).isSome = true ∧ b ≠ "imageinfo"
      · rw [wpGet_eq_cached qb tr jl ext hc.1 hc.2]
        exact hcache
      · by_cases hsk : b ∈ s.flags.skip
        · rw [wpGet_eq_skipped qb tr jl ext hc hsk]
          rw [ensureRecord_lookup_other hne]
          exact hcache
        · rw [wpGet_eq_fetch qb tr jl ext hc hsk]
          rw [fetchPhase_lookup_other hne, ensureRecord_lookup_other hne]
          exact hcache
    · rcases wpGet_calls qb tr jl ext s b with h | h
      · rw [h]
      · rw [h, List.count_append]
        simp [List.count_singleton, hne]

/-- C3: for every action in the session's skip set, no sequence of `fetch`
calls within one session ever invokes the transport collaborator for that
action, and the CacheStore never gains an entry for it other than the empty
placeholder (in particular, never a non-empty response). -/
theorem c3_skip_never_fetched (qb : Params → String → String)
    (tr : String → String × ReqInfo) (jl : String → Option Json)
    (ext : String → Json → List (String × Json) → List (String × Json))
    (fl : Flags) (p : Params) (a : String)
    (hskip : a ∈ fl.skip) (acts : List String) :
    (clookup (runSeq qb tr jl ext (initSession fl p) acts).cache a = none ∨
     clookup (runSeq qb tr jl ext (initSession fl p) acts).cache a = some emptyRecord) ∧
    List.count a (runSeq qb tr jl ext (initSession fl p) acts).calls = 0 := by
  suffices hgen : ∀ s : Session, a ∈ s.flags.skip →
      (clookup s.cache a = none ∨ clookup s.cache a = some emptyRecord) →
      ((clookup (runSeq qb tr jl ext s acts).cache a = none ∨
        clookup (runSeq qb tr jl ext s acts).cache a = some emptyRecord) ∧
       List.count a (runSeq qb tr jl ext s acts).calls = List.count a s.calls) by
    have h0 := hgen (initSession fl p) hskip (Or.inl rfl)
    exact ⟨h0.1, h0.2.trans rfl⟩
  induction acts with
  | nil => exact fun s _ hc => ⟨hc, rfl⟩
  | cons b rest ih =>
    intro s hs hc
    have hstep := skip_invariant_step qb tr jl ext s a b hs hc
    have hs' : a ∈ (wpGet qb tr jl ext s b).1.flags.skip := by
      rw [wpGet_flags]
      exact hs
    have hrec := ih (wpGet qb tr jl ext s b).1 hs' hstep.1
    exact ⟨hrec.1, by rw [show runSeq qb tr jl ext s (b :: rest)
        = runSeq qb tr jl ext (wpGet qb tr jl ext s b).1 rest from rfl,
      hrec.2, hstep.2]⟩

/-- C3 witness: with "query" in the skip set, a sequence that tries "query"
twice around a "parse" fetch never calls transport for "query" and leaves
only the placeholder. -/
theorem c3_skip_never_fetched_witness :
    "query" ∈ egSkipFlags.skip ∧
    ((clookup (runSeq egQb egTr egJl egExt (initSession egSkipFlags egParams)
        ["query", "parse", "query"]).cache "query" = none ∨
      clookup (runSeq egQb egTr egJl egExt (initSession egSkipFlags egParams)
        ["query", "parse", "query"]).cache "query" = some emptyRecord) ∧
     List.count "query" (runSeq egQb egTr egJl egExt (initSession egSkipFlags egParams)
        ["query", "parse", "query"]).calls = 0) :=
  ⟨by simp [egSkipFlags],
    c3_skip_never_fetched egQb egTr egJl egExt egSkipFlags egParams "query"
      (by simp [egSkipFlags]) ["query", "parse", "query"]⟩

end WP
